import Mathlib

/-! Shallow embedding of the request dispatch and retry engine of
conjure-runtime (`src/conjure-runtime/src/send.rs`).

Modelling conventions:
* Durations and instants are natural numbers (abstract nanoseconds);
  `Instant::now()` at dispatch entry is the `start` parameter, and the
  absolute deadline is `start + request_timeout`.
* The random draw `rand::thread_rng().gen_range(Duration::from_secs(0), max)`
  is modelled by an oracle `r : Nat` reduced into the range as `r % max`;
  the panic of `gen_range` on an empty range, and the panic of the left
  shift `1 << attempt` when `attempt` is at least the shift width 32,
  are explicit `PrepOutcome` values.
* Rust panics inside `build_url` (the `assert!` on the leading slash and
  the two cardinality panics) are modelled by an `Option` result, `none`
  meaning the dispatch aborts by panicking.
* The node selector, the transport, the body writer, the body reset
  behaviour and the per-attempt wall-clock durations are oracles supplied
  in an `Env` record, indexed by the attempt counter; this makes the event
  order of the async code explicit while keeping every branch of the
  source intact.
* Conjure `Error` values are modelled by the inductive `Err`;
  `Error::with_safe_param("url", ...)` is the wrapper `Err.withUrl`.
-/

/-- Conjure `Error` values produced by `send.rs`, one constructor per
`Error` construction site (ids distinguish distinct underlying io errors). -/
inductive Err where
  | timeoutErr : Err
  | noNode : Err
  | throttled : Err
  | unavailable : Err
  | throttleProp : Option Nat → Err
  | unavailableProp : Err
  | serviceErr : Nat → Bool → Err
  | transport : Nat → Err
  | bodyWrite : Nat → Err
  | withUrl : String → Err → Err
  deriving DecidableEq, Repr

/-- Observable state of the `ResetTrackingBody` at one retry point:
the value `needs_reset()` would return, and the value `reset()` would
return if invoked. -/
structure BodyState where
  needsReset : Bool
  resetOk : Bool
  deriving DecidableEq, Repr

/-- Outcome of `prepare_for_retry`: abort with the carried error, one of
the two possible panics in the backoff computation, or sleep for a
concrete backoff before the next attempt. -/
inductive PrepOutcome where
  | abortGate : Err → PrepOutcome
  | panicShiftOverflow : PrepOutcome
  | panicEmptyRange : PrepOutcome
  | sleep : Nat → PrepOutcome
  deriving DecidableEq, Repr

/-- Result of `prepare_for_retry` together with the observable side
effects: the post-increment attempt counter and whether `reset()` was
invoked on the body. -/
structure PrepResult where
  attempt' : Nat
  resetInvoked : Bool
  outcome : PrepOutcome
  deriving DecidableEq, Repr

/-- The backoff computation at the tail of `prepare_for_retry`
(`send.rs` lines 347-354): `retry_after` verbatim when present, otherwise
`gen_range(0, backoff_slot_size * (1 << attempt))` with its two panic
modes made explicit. `attempt'` is the post-increment counter. -/
def computeBackoff (slot attempt' : Nat) (retryAfter : Option Nat) (r : Nat) : PrepOutcome :=
  match retryAfter with
  | some backoff => .sleep backoff
  | none =>
    if 32 ≤ attempt' then .panicShiftOverflow
    else
      let scale := 2 ^ attempt'
      let m := slot * scale
      if m = 0 then .panicEmptyRange else .sleep (r % m)

/-- `State::prepare_for_retry` (`send.rs` lines 323-363). The attempt
counter is incremented first; the three abort gates run in order (retry
limit, idempotency, body reset), each returning the error carried from
the failed attempt; only then is the backoff computed and slept. -/
def prepare_for_retry (attempt maxNumRetries : Nat) (idempotent : Bool)
    (body : Option BodyState) (e : Err) (retryAfter : Option Nat)
    (slot r : Nat) : PrepResult :=
  let a := attempt + 1
  if maxNumRetries ≤ a then ⟨a, false, .abortGate e⟩
  else if ¬ idempotent then ⟨a, false, .abortGate e⟩
  else
    match body with
    | some b =>
      if b.needsReset then
        if b.resetOk then ⟨a, true, computeBackoff slot a retryAfter r⟩
        else ⟨a, true, .abortGate e⟩
      else ⟨a, false, computeBackoff slot a retryAfter r⟩
    | none => ⟨a, false, computeBackoff slot a retryAfter r⟩

/-- The body gate of `prepare_for_retry` passes when there is no body, the
body needs no reset, or its reset succeeds. -/
def bodyGateOk : Option BodyState → Bool
  | none => true
  | some b => !b.needsReset || b.resetOk

/-- Rust `str::parse::<u64>()` as applied to the `Retry-After` header
value: an optional single leading plus sign, then one or more ASCII
digits, with the value below `2 ^ 64`; anything else is an error, which
`.ok()` turns into `none`. Characters are handled through `String.data`
so the function evaluates by kernel reduction. -/
def parse_u64 (s : String) : Option Nat :=
  let t := match s.data with
    | '+' :: rest => rest
    | cs => cs
  if t.isEmpty then none
  else if t.all Char.isDigit then
    let n := t.foldl (fun acc c => acc * 10 + (c.toNat - 48)) 0
    if n < 2 ^ 64 then some n else none
  else none

/-- Reference predicate for the `Retry-After` wire format: the characters
of the header value after at most one leading plus sign. -/
def stripLeadingPlus (s : String) : List Char :=
  match s.data with
  | '+' :: rest => rest
  | cs => cs

/-- Reference value of a decimal digit string. -/
def decimalValue (cs : List Char) : Nat :=
  cs.foldl (fun acc c => acc * 10 + (c.toNat - 48)) 0

/-- Response of the raw HTTP transport, before classification. -/
structure RawResponse where
  status : Nat
  retryAfterHeader : Option String
  deriving DecidableEq, Repr

/-- The `Response` handed back to the caller; `Response::new` receives the
dispatch deadline so body reads inherit the overall bound. -/
structure Response where
  status : Nat
  retryAfterHeader : Option String
  deadline : Nat
  deriving DecidableEq, Repr

/-- Result of the body writer half of one attempt. -/
inductive BodyWriteRes where
  | ok : BodyWriteRes
  | err : Nat → BodyWriteRes
  deriving DecidableEq, Repr

/-- Result of the transport half of one attempt. For the error case the
boolean records whether the hyper error's cause chain is a `BodyError`
(the request body aborted); the `Nat` is the error id. -/
inductive TransportRes where
  | ok : RawResponse → TransportRes
  | err : Bool → Nat → TransportRes
  deriving DecidableEq, Repr

/-- `State::deconflict_errors` (`send.rs` lines 313-321): when both the
body writer and the transport fail, report the body error exactly when
the hyper error's source chain is a `BodyError`. -/
def deconflict_errors (bodyErrId : Nat) (causeIsBodyAbort : Bool) (hyperErrId : Nat) : Err :=
  if causeIsBodyAbort then .bodyWrite bodyErrId else .transport hyperErrId

/-- `State::send_raw` (`send.rs` lines 170-207), after the join of the
body writer and the transport call: the four cases of the
`(body_result, response_result)` match. The boolean result records
whether the body-error-on-success warning was logged. `Response::new`
receives the dispatch deadline. -/
def send_raw (deadline : Nat) (bodyRes : BodyWriteRes) (respRes : TransportRes) :
    Except Err Response × Bool :=
  match bodyRes, respRes with
  | .ok, .ok r => (.ok ⟨r.status, r.retryAfterHeader, deadline⟩, false)
  | .ok, .err _ hid => (.error (.transport hid), false)
  | .err _, .ok r => (.ok ⟨r.status, r.retryAfterHeader, deadline⟩, true)
  | .err bid, .err cba hid => (.error (deconflict_errors bid cba hid), false)

/-- `StatusCode::is_success`: 2xx. -/
def isSuccess (status : Nat) : Bool := 200 ≤ status && status < 300

/-- Calls observed by the node cursor. -/
inductive CursorEv where
  | next : CursorEv
  | prevFailed : CursorEv
  deriving DecidableEq, Repr

/-- `AttemptOutcome` from `send.rs` lines 366-372. -/
inductive AttemptOutcome where
  | ok : Response → AttemptOutcome
  | retry : Err → Option Nat → AttemptOutcome
  deriving DecidableEq, Repr

/-- The `ClientState` snapshot fields the dispatch engine reads. -/
structure Cfg where
  requestTimeout : Nat
  maxNumRetries : Nat
  backoffSlotSize : Nat
  propagateQos : Bool
  propagateService : Bool
  deriving DecidableEq, Repr

/-- Caller-visible `Request` fields; the body is reduced to its presence,
its behaviour being scripted by the environment oracles. -/
structure Request where
  method : String
  pattern : String
  headers : List (String × String)
  params : List (String × List String)
  idempotent : Bool
  body : Option Unit
  deriving DecidableEq, Repr

/-- Oracles for everything outside the dispatch engine, indexed by the
attempt counter: the node cursor's answers, the two halves of each raw
exchange, per-attempt wall-clock durations, the body's reset behaviour
at each retry, and the random jitter draw. -/
structure Env where
  node : Nat → Option String
  bodyRes : Nat → BodyWriteRes
  respRes : Nat → TransportRes
  attemptTime : Nat → Nat
  bodyState : Nat → BodyState
  rng : Nat → Nat

deriving instance DecidableEq for Except

/-- Result of `State::send_attempt` plus the cursor calls it made and how
many times the transport was invoked (0 or 1). -/
structure AttemptResult where
  outcome : Except Err AttemptOutcome
  cursorEvents : List CursorEv
  transportCalls : Nat
  deriving DecidableEq, Repr

/-- `State::send_attempt` (`send.rs` lines 87-168): pull a node from the
cursor, run `send_raw`, classify the result (2xx, 429, 503, other
non-2xx, transport error), inform the cursor via `prev_failed` on 503,
other non-2xx and transport errors, and tag every error with the node
url. -/
def send_attempt (cfg : Cfg) (env : Env) (deadline : Nat) (attempt : Nat) : AttemptResult :=
  match env.node attempt with
  | none => ⟨.error .noNode, [.next], 0⟩
  | some url =>
    match (send_raw deadline (env.bodyRes attempt) (env.respRes attempt)).1 with
    | .ok resp =>
      if isSuccess resp.status then ⟨.ok (.ok resp), [.next], 1⟩
      else if resp.status = 429 then
        let retryAfter := resp.retryAfterHeader.bind parse_u64
        if cfg.propagateQos then
          ⟨.error (.withUrl url (.throttleProp retryAfter)), [.next], 1⟩
        else ⟨.ok (.retry (.withUrl url .throttled) retryAfter), [.next], 1⟩
      else if resp.status = 503 then
        if cfg.propagateQos then
          ⟨.error (.withUrl url .unavailableProp), [.next, .prevFailed], 1⟩
        else ⟨.ok (.retry (.withUrl url .unavailable) none), [.next, .prevFailed], 1⟩
      else
        ⟨.error (.withUrl url (.serviceErr resp.status cfg.propagateService)),
          [.next, .prevFailed], 1⟩
    | .error e => ⟨.ok (.retry (.withUrl url e) none), [.next, .prevFailed], 1⟩

/-- Terminal result of one dispatch. `fuelOut` is the artefact of the fuel
parameter of the loop and is unreachable with the fuel `send` supplies. -/
inductive DispatchResult where
  | ok : Response → DispatchResult
  | err : Err → DispatchResult
  | panicked : DispatchResult
  | fuelOut : DispatchResult
  deriving DecidableEq, Repr

/-- Result of the attempt loop together with its observable trace: final
request state, cursor calls, transport invocations, the request as seen
at the start of every attempt, the backoffs slept, and the absolute
completion instant. -/
structure LoopResult where
  result : DispatchResult
  finalReq : Request
  cursorEvents : List CursorEv
  transportCalls : Nat
  snapshots : List Request
  backoffs : List Nat
  finish : Nat
  deriving DecidableEq, Repr

/-- The attempt loop of `State::send` (`send.rs` lines 69-85): run one
attempt, return on success or terminal error, otherwise run
`prepare_for_retry` and loop. Structural fuel bounds the recursion; the
retry-limit gate exits before fuel `maxNumRetries + 1` is consumed. -/
def sendLoop (cfg : Cfg) (env : Env) (req : Request) (deadline : Nat) (hasBody : Bool) :
    Nat → Nat → Nat → LoopResult
  | _, now, 0 => ⟨.fuelOut, req, [], 0, [], [], now⟩
  | attempt, now, fuel + 1 =>
    let ar := send_attempt cfg env deadline attempt
    let t1 := now + ar.transportCalls * env.attemptTime attempt
    match ar.outcome with
    | .error e => ⟨.err e, req, ar.cursorEvents, ar.transportCalls, [req], [], t1⟩
    | .ok (.ok resp) => ⟨.ok resp, req, ar.cursorEvents, ar.transportCalls, [req], [], t1⟩
    | .ok (.retry e retryAfter) =>
      let p := prepare_for_retry attempt cfg.maxNumRetries req.idempotent
        (if hasBody then some (env.bodyState attempt) else none) e retryAfter
        cfg.backoffSlotSize (env.rng attempt)
      match p.outcome with
      | .abortGate e' => ⟨.err e', req, ar.cursorEvents, ar.transportCalls, [req], [], t1⟩
      | .panicShiftOverflow =>
        ⟨.panicked, req, ar.cursorEvents, ar.transportCalls, [req], [], t1⟩
      | .panicEmptyRange =>
        ⟨.panicked, req, ar.cursorEvents, ar.transportCalls, [req], [], t1⟩
      | .sleep backoff =>
        let rest := sendLoop cfg env req deadline hasBody p.attempt' (t1 + backoff) fuel
        ⟨rest.result, rest.finalReq, ar.cursorEvents ++ rest.cursorEvents,
          ar.transportCalls + rest.transportCalls, req :: rest.snapshots,
          backoff :: rest.backoffs, rest.finish⟩

/-- Top-level `send` (`send.rs` lines 36-57): snapshot the client state,
fix the absolute deadline `start + request_timeout`, take the body out of
the request, run the attempt loop, and race the whole loop against
`request_timeout`, returning `TimeoutError` when the loop completes after
the deadline. -/
def send (cfg : Cfg) (env : Env) (req : Request) (start : Nat) : DispatchResult × LoopResult :=
  let deadline := start + cfg.requestTimeout
  let hasBody := req.body.isSome
  let innerReq : Request := { req with body := none }
  let lr := sendLoop cfg env innerReq deadline hasBody 0 start (cfg.maxNumRetries + 1)
  (if deadline < lr.finish then .err .timeoutErr else lr.result, lr)

/-- A URL as the dispatch engine manipulates it: the node's base URL plus
appended path segments and query pairs. -/
structure Url where
  pathSegments : List String
  queryPairs : List (String × String)
  deriving DecidableEq, Repr

/-- Rust `str::starts_with(char)`. -/
def strStartsWith (c : Char) (s : String) : Bool :=
  match s.data with
  | [] => false
  | x :: _ => x == c

/-- Helper for `splitSegs`: the accumulator holds the current segment
reversed. -/
def splitSegsAux : List Char → List Char → List String
  | [], acc => [String.mk acc.reverse]
  | c :: rest, acc =>
    if c = '/' then String.mk acc.reverse :: splitSegsAux rest []
    else splitSegsAux rest (c :: acc)

/-- Rust `str::split('/')`: splitting the empty string yields one empty
segment, and every separator occurrence starts a new segment. -/
def splitSegs (cs : List Char) : List String := splitSegsAux cs []

/-- `State::parse_param` (`send.rs` lines 305-311): a segment that starts
with an opening brace and ends with a closing brace is a placeholder
whose name is the text between them. -/
def parse_param (segment : String) : Option String :=
  match segment.data with
  | '\x7b' :: rest =>
    match rest.getLast? with
    | some c => if c = '\x7d' then some (String.mk rest.dropLast) else none
    | none => none
  | _ => none

/-- `HashMap::get` on the request's parameter map, modelled as an
association list. -/
def lookupParam : List (String × List String) → String → Option (List String)
  | [], _ => none
  | (k, vs) :: rest, n => if k = n then some vs else lookupParam rest n

/-- `HashMap::remove` on the request's parameter map: the removed value
(if any) and the map without the first entry for that key. -/
def removeParam (n : String) : List (String × List String) →
    Option (List String) × List (String × List String)
  | [] => (none, [])
  | (k, vs) :: rest =>
    if k = n then (some vs, rest)
    else
      let r := removeParam n rest
      (r.1, (k, vs) :: r.2)

/-- The segment loop of `State::build_url` (`send.rs` lines 279-294):
literals are pushed as path segments; a placeholder consumes its
parameter, panicking (`none`) when the parameter is absent or does not
have exactly one value. Returns the extended URL and the remaining
parameters. -/
def build_url_go (url : Url) (params : List (String × List String)) :
    List String → Option (Url × List (String × List String))
  | [] => some (url, params)
  | seg :: rest =>
    match parse_param seg with
    | some name =>
      match removeParam name params with
      | (some [v], params') =>
        build_url_go { url with pathSegments := url.pathSegments ++ [v] } params' rest
      | (some _, _) => none
      | (none, _) => none
    | none => build_url_go { url with pathSegments := url.pathSegments ++ [seg] } params rest

/-- `State::build_url` (`send.rs` lines 270-303): assert the leading
slash (panic modelled as `none`), process the pattern's segments, then
append every remaining parameter as query pairs, one pair per value in
order. -/
def build_url (base : Url) (pattern : String)
    (params : List (String × List String)) : Option Url :=
  if strStartsWith '/' pattern then
    match build_url_go base params (splitSegs pattern.data.tail) with
    | some (url, rest) =>
      some { url with
        queryPairs := url.queryPairs ++ rest.flatMap (fun kv => kv.2.map (fun v => (kv.1, v))) }
    | none => none
  else none

/-- Specification-side view of one pattern segment: a literal stays
itself, a placeholder is replaced by the single value bound to its name
in the original parameter map. -/
def specSegment (params : List (String × List String)) (seg : String) : String :=
  match parse_param seg with
  | none => seg
  | some n =>
    match lookupParam params n with
    | some (v :: _) => v
    | _ => seg

/-- A parameter name is in bad cardinality for path substitution when it
is absent or does not have exactly one value. -/
def badCardinality (params : List (String × List String)) (n : String) : Bool :=
  match lookupParam params n with
  | none => true
  | some vs => vs.length != 1

/-- Hop-by-hop removal on the caller's header map (lower-cased names),
`HeaderMap::remove`. -/
def removeHeader (name : String) (hs : List (String × String)) : List (String × String) :=
  hs.filter (fun kv => kv.1 != name)

/-- `HeaderMap::insert`: replaces any existing value for the name. -/
def insertHeader (name value : String) (hs : List (String × String)) :
    List (String × String) :=
  removeHeader name hs ++ [(name, value)]

/-- `State::new_headers` (`send.rs` lines 209-231): clone the caller's
headers, strip the hop-by-hop headers, inject the trace context, and
derive `content-length` and `content-type` from the body when present. -/
def new_headers (callerHeaders : List (String × String)) (traceContext : String)
    (body : Option (String × Option Nat)) : List (String × String) :=
  let hs := removeHeader "connection" callerHeaders
  let hs := removeHeader "host" hs
  let hs := removeHeader "proxy-authorization" hs
  let hs := removeHeader "content-length" hs
  let hs := removeHeader "content-type" hs
  let hs := insertHeader "x-b3-tracecontext" traceContext hs
  match body with
  | some b =>
    let hs :=
      match b.2 with
      | some len => insertHeader "content-length" (toString len) hs
      | none => hs
    insertHeader "content-type" b.1 hs
  | none => hs

/-! Helper lemmas about `prepare_for_retry`, shared by several theorems. -/

/-- The attempt counter is incremented on every call, before any gate. -/
theorem prepare_attempt_increment (attempt maxR : Nat) (idem : Bool)
    (body : Option BodyState) (e : Err) (ra : Option Nat) (slot r : Nat) :
    (prepare_for_retry attempt maxR idem body e ra slot r).attempt' = attempt + 1 := by
  rcases body with _ | ⟨nr, ro⟩ <;> cases idem <;>
    by_cases h1 : maxR ≤ attempt + 1 <;>
    simp [prepare_for_retry, h1] <;> cases nr <;> cases ro <;> simp

/-- A sleep outcome is only reachable when all three gates pass. -/
theorem prepare_sleep_gates (attempt maxR : Nat) (idem : Bool)
    (body : Option BodyState) (e : Err) (ra : Option Nat) (slot r bk : Nat)
    (h : (prepare_for_retry attempt maxR idem body e ra slot r).outcome = .sleep bk) :
    attempt + 1 < maxR ∧ idem = true ∧ bodyGateOk body = true := by
  rcases body with _ | ⟨nr, ro⟩ <;> cases idem <;>
    by_cases h1 : maxR ≤ attempt + 1 <;>
    simp [prepare_for_retry, h1, bodyGateOk] at h ⊢ <;>
    first
    | omega
    | (cases nr <;> cases ro <;> simp_all <;> omega)

/-- When all three gates pass, the result is the backoff computation at the
post-increment counter. -/
theorem prepare_gates_pass_outcome (attempt maxR : Nat)
    (body : Option BodyState) (e : Err) (ra : Option Nat) (slot r : Nat)
    (h1 : attempt + 1 < maxR) (hb : bodyGateOk body = true) :
    (prepare_for_retry attempt maxR true body e ra slot r).outcome
      = computeBackoff slot (attempt + 1) ra r := by
  rcases body with _ | ⟨nr, ro⟩ <;>
    simp [prepare_for_retry, Nat.not_le.mpr h1, bodyGateOk] at hb ⊢ <;>
    cases nr <;> cases ro <;> simp_all

/-- C1: for every retryable attempt outcome, `prepare_for_retry` first
increments the attempt counter, then applies its abort gates in order —
retry limit, idempotency, body reset (with `reset()` invoked exactly when
a body exists and needs reset and the earlier gates passed) — each
aborting with the error carried from the failed attempt, and a backoff
sleep is reached only when all three gates pass. -/
theorem c1_prepare_for_retry_gate_order (attempt maxR : Nat) (idem : Bool)
    (body : Option BodyState) (e : Err) (ra : Option Nat) (slot r : Nat) :
    (prepare_for_retry attempt maxR idem body e ra slot r).attempt' = attempt + 1
    ∧ (maxR ≤ attempt + 1 →
        prepare_for_retry attempt maxR idem body e ra slot r
          = ⟨attempt + 1, false, .abortGate e⟩)
    ∧ (attempt + 1 < maxR → idem = false →
        prepare_for_retry attempt maxR idem body e ra slot r
          = ⟨attempt + 1, false, .abortGate e⟩)
    ∧ (attempt + 1 < maxR → idem = true →
        ((prepare_for_retry attempt maxR idem body e ra slot r).resetInvoked = true
          ↔ ∃ b, body = some b ∧ b.needsReset = true))
    ∧ (attempt + 1 < maxR → idem = true → ∀ b, body = some b →
        b.needsReset = true → b.resetOk = false →
        prepare_for_retry attempt maxR idem body e ra slot r
          = ⟨attempt + 1, true, .abortGate e⟩)
    ∧ (∀ bk, (prepare_for_retry attempt maxR idem body e ra slot r).outcome = .sleep bk →
        attempt + 1 < maxR ∧ idem = true ∧ bodyGateOk body = true) := by
  refine ⟨prepare_attempt_increment .., ?_, ?_, ?_, ?_,
    fun bk h => prepare_sleep_gates attempt maxR idem body e ra slot r bk h⟩
  · intro h1
    rcases body with _ | b <;> simp [prepare_for_retry, h1]
  · intro h1 hid
    subst hid
    rcases body with _ | b <;> simp [prepare_for_retry, Nat.not_le.mpr h1]
  · intro h1 hid
    subst hid
    rcases body with _ | ⟨nr, ro⟩ <;>
      simp [prepare_for_retry, Nat.not_le.mpr h1] <;> cases nr <;> cases ro <;> simp
  · intro h1 hid b hb hnr hro
    subst hid hb
    simp [prepare_for_retry, Nat.not_le.mpr h1, hnr, hro]

/-- Witness for C1 at a concrete input: a passing body gate leading to a
sleep, so the converse gate conjunct applies. -/
theorem c1_prepare_for_retry_gate_order_witness :
    0 + 1 < 3 ∧ true = true ∧ bodyGateOk (some ⟨true, true⟩) = true :=
  (c1_prepare_for_retry_gate_order 0 3 true (some ⟨true, true⟩) Err.throttled
    (some 5) 1 0).2.2.2.2.2 5 (by decide)

/-- C4: when all gates pass, a server-provided `Retry-After` is used
verbatim as the backoff; without it the backoff at post-increment attempt
`k` is the jitter draw reduced into `[0, backoff_slot_size * 2 ^ k)`, it
always lands in that half-open interval, and every value of the interval
is realised by some draw. -/
theorem c4_backoff_interval (attempt maxR : Nat) (body : Option BodyState)
    (e : Err) (slot r : Nat)
    (hgate : attempt + 1 < maxR) (hbody : bodyGateOk body = true) :
    (∀ d, (prepare_for_retry attempt maxR true body e (some d) slot r).outcome = .sleep d)
    ∧ (attempt + 1 < 32 → 0 < slot →
        (prepare_for_retry attempt maxR true body e none slot r).outcome
            = .sleep (r % (slot * 2 ^ (attempt + 1)))
          ∧ r % (slot * 2 ^ (attempt + 1)) < slot * 2 ^ (attempt + 1))
    ∧ (∀ v, v < slot * 2 ^ (attempt + 1) → attempt + 1 < 32 →
        ∃ r', (prepare_for_retry attempt maxR true body e none slot r').outcome
          = .sleep v) := by
  refine ⟨?_, ?_, ?_⟩
  · intro d
    rw [prepare_gates_pass_outcome attempt maxR body e (some d) slot r hgate hbody]
    rfl
  · intro h32 hslot
    rw [prepare_gates_pass_outcome attempt maxR body e none slot r hgate hbody]
    have hm : 0 < slot * 2 ^ (attempt + 1) := Nat.mul_pos hslot (Nat.pos_pow_of_pos _ (by norm_num))
    refine ⟨?_, Nat.mod_lt _ hm⟩
    simp [computeBackoff, Nat.not_le.mpr h32, Nat.pos_iff_ne_zero.mp hm]
  · intro v hv h32
    have hm : 0 < slot * 2 ^ (attempt + 1) := Nat.lt_of_le_of_lt (Nat.zero_le v) hv
    refine ⟨v, ?_⟩
    rw [prepare_gates_pass_outcome attempt maxR body e none slot v hgate hbody]
    simp [computeBackoff, Nat.not_le.mpr h32, Nat.pos_iff_ne_zero.mp hm,
      Nat.mod_eq_of_lt hv]

/-- Witness for C4 at a concrete input: verbatim `Retry-After` and the
jitter interval at attempt 1 with slot 3. -/
theorem c4_backoff_interval_witness :
    (prepare_for_retry 0 3 true none Err.throttled (some 7) 3 5).outcome = .sleep 7
    ∧ ((prepare_for_retry 0 3 true none Err.throttled none 3 5).outcome
          = .sleep (5 % (3 * 2 ^ (0 + 1)))
        ∧ 5 % (3 * 2 ^ (0 + 1)) < 3 * 2 ^ (0 + 1)) :=
  ⟨(c4_backoff_interval 0 3 none Err.throttled 3 5 (by decide) (by decide)).1 7,
    (c4_backoff_interval 0 3 none Err.throttled 3 5 (by decide) (by decide)).2.1
      (by decide) (by decide)⟩

/-- C9: past the gates and without `Retry-After`, the backoff computation
is total exactly under `0 < backoff_slot_size` and post-increment attempt
below 32: at 32 or above the left shift panics (reachable only when
`max_num_retries` exceeds 32), and with a zero slot the random draw over
the empty range panics instead of sleeping zero. -/
theorem c9_backoff_panics (attempt maxR : Nat) (body : Option BodyState)
    (e : Err) (slot r : Nat)
    (hgate : attempt + 1 < maxR) (hbody : bodyGateOk body = true) :
    (32 ≤ attempt + 1 →
      (prepare_for_retry attempt maxR true body e none slot r).outcome = .panicShiftOverflow
        ∧ 32 < maxR)
    ∧ (attempt + 1 < 32 → slot = 0 →
      (prepare_for_retry attempt maxR true body e none slot r).outcome = .panicEmptyRange)
    ∧ (attempt + 1 < 32 → 0 < slot →
      ∃ bk, (prepare_for_retry attempt maxR true body e none slot r).outcome = .sleep bk
        ∧ bk < slot * 2 ^ (attempt + 1)) := by
  refine ⟨?_, ?_, ?_⟩
  · intro h32
    rw [prepare_gates_pass_outcome attempt maxR body e none slot r hgate hbody]
    exact ⟨by simp [computeBackoff, h32], by omega⟩
  · intro h32 hslot
    rw [prepare_gates_pass_outcome attempt maxR body e none slot r hgate hbody]
    simp [computeBackoff, Nat.not_le.mpr h32, hslot]
  · intro h32 hslot
    have hm : 0 < slot * 2 ^ (attempt + 1) := Nat.mul_pos hslot (Nat.pos_pow_of_pos _ (by norm_num))
    refine ⟨r % (slot * 2 ^ (attempt + 1)), ?_, Nat.mod_lt _ hm⟩
    rw [prepare_gates_pass_outcome attempt maxR body e none slot r hgate hbody]
    simp [computeBackoff, Nat.not_le.mpr h32, Nat.pos_iff_ne_zero.mp hm]

/-- Witness for C9 at concrete inputs: the empty-range panic at slot 0 and
the shift panic at post-increment attempt 32. -/
theorem c9_backoff_panics_witness :
    (prepare_for_retry 0 3 true none Err.throttled none 0 5).outcome = .panicEmptyRange
    ∧ (prepare_for_retry 31 40 true none Err.throttled none 1 5).outcome
        = .panicShiftOverflow ∧ 32 < 40 :=
  ⟨(c9_backoff_panics 0 3 none Err.throttled 0 5 (by decide) (by decide)).2.1
      (by decide) rfl,
    (c9_backoff_panics 31 40 none Err.throttled 1 5 (by decide) (by decide)).1
      (by decide)⟩

/-- C5: when both the body writer and the transport fail within one
attempt, the body error is reported exactly when the transport error's
cause chain indicates the request body aborted, otherwise the transport
error is reported; when only the body writer fails but the transport
yields a response, the warning is logged and the response is used. -/
theorem c5_error_deconfliction (deadline bid : Nat) (cba : Bool) (hid : Nat)
    (resp : RawResponse) :
    ((send_raw deadline (.err bid) (.err cba hid)).1 = .error (.bodyWrite bid) ↔ cba = true)
    ∧ (cba = false →
        (send_raw deadline (.err bid) (.err cba hid)).1 = .error (.transport hid))
    ∧ send_raw deadline (.err bid) (.ok resp)
        = (.ok ⟨resp.status, resp.retryAfterHeader, deadline⟩, true) := by
  cases cba <;> simp [send_raw, deconflict_errors]

/-- Witness for C5 at concrete inputs: a body-abort cause chain selects
the body error, and a body-only failure with a response logs and uses the
response. -/
theorem c5_error_deconfliction_witness :
    (send_raw 9 (.err 1) (.err true 2)).1 = .error (.bodyWrite 1)
    ∧ send_raw 9 (.err 1) (.ok ⟨200, none⟩) = (.ok ⟨200, none, 9⟩, true) :=
  ⟨(c5_error_deconfliction 9 1 true 2 ⟨200, none⟩).1.mpr rfl,
    (c5_error_deconfliction 9 1 true 2 ⟨200, none⟩).2.2⟩

/-- C3: within one attempt that obtained a node, the cursor sees exactly
`next` then one `prev_failed` when the attempt is classified as 503,
another non-2xx status, or a transport error, and exactly `next` alone
when it is classified as 2xx or 429; since every attempt's trace begins
with its `next` call, the `prev_failed` falls before the next `next`. -/
theorem c3_prev_failed_marking (cfg : Cfg) (env : Env) (deadline attempt : Nat)
    (url : String) (hnode : env.node attempt = some url) :
    (∀ resp, (send_raw deadline (env.bodyRes attempt) (env.respRes attempt)).1 = .ok resp →
      ((isSuccess resp.status = true ∨ resp.status = 429) →
        (send_attempt cfg env deadline attempt).cursorEvents = [.next])
      ∧ (isSuccess resp.status = false → resp.status ≠ 429 →
        (send_attempt cfg env deadline attempt).cursorEvents = [.next, .prevFailed]))
    ∧ (∀ e, (send_raw deadline (env.bodyRes attempt) (env.respRes attempt)).1 = .error e →
      (send_attempt cfg env deadline attempt).cursorEvents = [.next, .prevFailed]) := by
  constructor
  · intro resp hresp
    constructor
    · rintro (hs | hs)
      · simp [send_attempt, hnode, hresp, hs]
      · cases hq : cfg.propagateQos <;>
          simp [send_attempt, hnode, hresp, hs, hq,
            show isSuccess 429 = false from by decide]
    · intro hns h429
      by_cases h503 : resp.status = 503
      · cases hq : cfg.propagateQos <;>
          simp [send_attempt, hnode, hresp, h429, h503, hq,
            show isSuccess 503 = false from by decide]
      · simp [send_attempt, hnode, hresp, hns, h429, h503]
  · intro e herr
    simp [send_attempt, hnode, herr]

/-- Witness for C3 at concrete inputs: a 503 marks the node failed, a 429
does not. -/
theorem c3_prev_failed_marking_witness :
    (send_attempt ⟨10, 2, 1, false, false⟩
        ⟨fun _ => some "http://a/", fun _ => .ok, fun _ => .ok ⟨503, none⟩,
          fun _ => 1, fun _ => ⟨false, true⟩, fun _ => 0⟩ 10 0).cursorEvents
      = [.next, .prevFailed]
    ∧ (send_attempt ⟨10, 2, 1, false, false⟩
        ⟨fun _ => some "http://a/", fun _ => .ok, fun _ => .ok ⟨429, none⟩,
          fun _ => 1, fun _ => ⟨false, true⟩, fun _ => 0⟩ 10 0).cursorEvents
      = [.next] :=
  ⟨((c3_prev_failed_marking ⟨10, 2, 1, false, false⟩
      ⟨fun _ => some "http://a/", fun _ => .ok, fun _ => .ok ⟨503, none⟩,
        fun _ => 1, fun _ => ⟨false, true⟩, fun _ => 0⟩ 10 0 "http://a/" rfl).1
      ⟨503, none, 10⟩ rfl).2 (by decide) (by decide),
    ((c3_prev_failed_marking ⟨10, 2, 1, false, false⟩
      ⟨fun _ => some "http://a/", fun _ => .ok, fun _ => .ok ⟨429, none⟩,
        fun _ => 1, fun _ => ⟨false, true⟩, fun _ => 0⟩ 10 0 "http://a/" rfl).1
      ⟨429, none, 10⟩ rfl).1 (Or.inr rfl)⟩

/-- Characterization of the `Retry-After` parse: it succeeds exactly on a
nonempty all-digit string (after at most one leading plus sign) whose
decimal value fits in a `u64`, and yields that value. -/
theorem parse_u64_spec (s : String) (n : Nat) :
    parse_u64 s = some n ↔
      (stripLeadingPlus s ≠ [] ∧ (stripLeadingPlus s).all Char.isDigit = true
        ∧ n = decimalValue (stripLeadingPlus s) ∧ n < 2 ^ 64) := by
  have he : parse_u64 s =
      (if (stripLeadingPlus s).isEmpty then none
       else if (stripLeadingPlus s).all Char.isDigit then
         if decimalValue (stripLeadingPlus s) < 2 ^ 64 then
           some (decimalValue (stripLeadingPlus s))
         else none
       else none) := rfl
  rw [he]
  rcases hsp : stripLeadingPlus s with _ | ⟨c, cs⟩
  · simp
  · simp only [List.isEmpty_cons, Bool.false_eq_true, if_false]
    split_ifs with hall hlt
    · constructor
      · intro h
        injection h with h
        exact ⟨by simp, hall, h.symm, h ▸ hlt⟩
      · rintro ⟨-, -, rfl, -⟩
        rfl
    · constructor
      · intro h
        simp at h
      · rintro ⟨-, -, rfl, hn⟩
        exact absurd hn hlt
    · constructor
      · intro h
        simp at h
      · rintro ⟨-, hd, -, -⟩
        exact absurd hd hall

/-- C6: a 429 response's `Retry-After` header is parsed as a non-negative
decimal number of seconds with any unparseable form treated as absent;
with QoS propagation off the attempt yields a `Retry` outcome carrying
the parsed duration, and with propagation on the attempt fails the
dispatch with a throttle error carrying it. -/
theorem c6_429_retry_after (cfg : Cfg) (env : Env) (deadline attempt : Nat)
    (url : String) (resp : Response)
    (hnode : env.node attempt = some url)
    (hresp : (send_raw deadline (env.bodyRes attempt) (env.respRes attempt)).1 = .ok resp)
    (h429 : resp.status = 429) :
    (cfg.propagateQos = false →
      (send_attempt cfg env deadline attempt).outcome
        = .ok (.retry (.withUrl url .throttled) (resp.retryAfterHeader.bind parse_u64)))
    ∧ (cfg.propagateQos = true →
      (send_attempt cfg env deadline attempt).outcome
        = .error (.withUrl url (.throttleProp (resp.retryAfterHeader.bind parse_u64))))
    ∧ (∀ s n, parse_u64 s = some n ↔
        (stripLeadingPlus s ≠ [] ∧ (stripLeadingPlus s).all Char.isDigit = true
          ∧ n = decimalValue (stripLeadingPlus s) ∧ n < 2 ^ 64)) := by
  refine ⟨?_, ?_, fun s n => parse_u64_spec s n⟩
  · intro hq
    simp [send_attempt, hnode, hresp, h429, hq, show isSuccess 429 = false from by decide]
  · intro hq
    simp [send_attempt, hnode, hresp, h429, hq, show isSuccess 429 = false from by decide]

/-- Witness for C6 at a concrete input: a 429 with `Retry-After: 2` and
propagation off yields a retry carrying 2 seconds. -/
theorem c6_429_retry_after_witness :
    (send_attempt ⟨10, 2, 1, false, false⟩
        ⟨fun _ => some "http://a/", fun _ => .ok, fun _ => .ok ⟨429, some "2"⟩,
          fun _ => 1, fun _ => ⟨false, true⟩, fun _ => 0⟩ 10 0).outcome
      = .ok (.retry (.withUrl "http://a/" .throttled) (some 2))
    ∧ parse_u64 "2x" = none := by
  constructor
  · have h := (c6_429_retry_after ⟨10, 2, 1, false, false⟩
      ⟨fun _ => some "http://a/", fun _ => .ok, fun _ => .ok ⟨429, some "2"⟩,
        fun _ => 1, fun _ => ⟨false, true⟩, fun _ => 0⟩ 10 0 "http://a/"
      ⟨429, some "2", 10⟩ rfl rfl rfl).1 rfl
    simpa using h
  · decide

/-- Every successful `send_raw` response carries the dispatch deadline. -/
theorem send_raw_ok_deadline (deadline : Nat) (b : BodyWriteRes) (t : TransportRes)
    (resp : Response) (h : (send_raw deadline b t).1 = .ok resp) :
    resp.deadline = deadline := by
  obtain ⟨rs, ra, rd⟩ := resp
  cases b <;> cases t <;> simp [send_raw, deconflict_errors] at h <;> simp [h.2.2]

/-- Every successful attempt outcome carries the dispatch deadline. -/
theorem send_attempt_ok_deadline (cfg : Cfg) (env : Env) (deadline attempt : Nat)
    (resp : Response)
    (h : (send_attempt cfg env deadline attempt).outcome = .ok (.ok resp)) :
    resp.deadline = deadline := by
  cases hn : env.node attempt with
  | none => simp [send_attempt, hn] at h
  | some url =>
    cases hr : (send_raw deadline (env.bodyRes attempt) (env.respRes attempt)).1 with
    | error e => simp [send_attempt, hn, hr] at h
    | ok r =>
      have hd := send_raw_ok_deadline deadline (env.bodyRes attempt) (env.respRes attempt) r hr
      by_cases hs : isSuccess r.status = true
      · simp [send_attempt, hn, hr, hs] at h
        rw [← h]
        exact hd
      · by_cases h429 : r.status = 429 <;> by_cases h503 : r.status = 503 <;>
          cases hq : cfg.propagateQos <;>
          simp [send_attempt, hn, hr, hs, h429, h503, hq,
            show isSuccess 429 = false from by decide,
            show isSuccess 503 = false from by decide] at h

/-- One transport call at most per attempt. -/
theorem send_attempt_calls_le (cfg : Cfg) (env : Env) (deadline attempt : Nat) :
    (send_attempt cfg env deadline attempt).transportCalls ≤ 1 := by
  cases hn : env.node attempt with
  | none => simp [send_attempt, hn]
  | some url =>
    cases hr : (send_raw deadline (env.bodyRes attempt) (env.respRes attempt)).1 <;>
      simp [send_attempt, hn, hr] <;> split_ifs <;> simp

/-- Exactly one transport call per attempt when the cursor yields a node. -/
theorem send_attempt_calls_some (cfg : Cfg) (env : Env) (deadline attempt : Nat)
    (url : String) (hn : env.node attempt = some url) :
    (send_attempt cfg env deadline attempt).transportCalls = 1 := by
  cases hr : (send_raw deadline (env.bodyRes attempt) (env.respRes attempt)).1 <;>
    simp [send_attempt, hn, hr] <;> split_ifs <;> simp

/-- Every `Ok` response of the attempt loop carries the dispatch deadline. -/
theorem sendLoop_ok_deadline (cfg : Cfg) (env : Env) (req : Request)
    (deadline : Nat) (hasBody : Bool) :
    ∀ fuel attempt now resp,
      (sendLoop cfg env req deadline hasBody attempt now fuel).result = .ok resp →
      resp.deadline = deadline := by
  intro fuel
  induction fuel with
  | zero =>
    intro attempt now resp h
    simp [sendLoop] at h
  | succ fuel ih =>
    intro attempt now resp h
    cases har : (send_attempt cfg env deadline attempt).outcome with
    | error e => simp [sendLoop, har] at h
    | ok ao =>
      cases ao with
      | ok r =>
        simp [sendLoop, har] at h
        exact h ▸ send_attempt_ok_deadline cfg env deadline attempt r har
      | retry e ra =>
        cases hp : (prepare_for_retry attempt cfg.maxNumRetries req.idempotent
            (if hasBody then some (env.bodyState attempt) else none) e ra
            cfg.backoffSlotSize (env.rng attempt)).outcome with
        | abortGate e' => simp [sendLoop, har, hp] at h
        | panicShiftOverflow => simp [sendLoop, har, hp] at h
        | panicEmptyRange => simp [sendLoop, har, hp] at h
        | sleep bk =>
          simp [sendLoop, har, hp] at h
          exact ih _ _ _ h

/-- C2: the attempt loop is raced against `request_timeout` measured from
dispatch start — completion past the deadline yields a `TimeoutError` —
and any `Response` the dispatch returns carries the deadline
`start + request_timeout`, within which the loop finished. -/
theorem c2_deadline_race (cfg : Cfg) (env : Env) (req : Request) (start : Nat) :
    (start + cfg.requestTimeout < (send cfg env req start).2.finish →
      (send cfg env req start).1 = .err .timeoutErr)
    ∧ (∀ resp, (send cfg env req start).1 = .ok resp →
        resp.deadline = start + cfg.requestTimeout
          ∧ (send cfg env req start).2.finish ≤ start + cfg.requestTimeout) := by
  constructor
  · intro h
    simp only [send] at h ⊢
    rw [if_pos h]
  · intro resp h
    simp only [send] at h ⊢
    by_cases hf : start + cfg.requestTimeout <
        (sendLoop cfg env { req with body := none } (start + cfg.requestTimeout)
          req.body.isSome 0 start (cfg.maxNumRetries + 1)).finish
    · rw [if_pos hf] at h
      simp at h
    · rw [if_neg hf] at h
      exact ⟨sendLoop_ok_deadline cfg env { req with body := none }
          (start + cfg.requestTimeout) req.body.isSome (cfg.maxNumRetries + 1)
          0 start resp h,
        Nat.le_of_not_lt hf⟩

/-- Witness for C2 at concrete inputs: a slow attempt trips the timeout,
and a fast success carries the deadline in its response. -/
theorem c2_deadline_race_witness :
    (send ⟨10, 1, 1, false, false⟩
        ⟨fun _ => some "http://a/", fun _ => .ok, fun _ => .ok ⟨200, none⟩,
          fun _ => 100, fun _ => ⟨false, true⟩, fun _ => 0⟩
        ⟨"GET", "/x", [], [], true, none⟩ 0).1 = .err .timeoutErr
    ∧ (⟨200, none, 10⟩ : Response).deadline = 0 + 10 :=
  ⟨(c2_deadline_race ⟨10, 1, 1, false, false⟩
      ⟨fun _ => some "http://a/", fun _ => .ok, fun _ => .ok ⟨200, none⟩,
        fun _ => 100, fun _ => ⟨false, true⟩, fun _ => 0⟩
      ⟨"GET", "/x", [], [], true, none⟩ 0).1 (by decide),
    ((c2_deadline_race ⟨10, 1, 1, false, false⟩
      ⟨fun _ => some "http://a/", fun _ => .ok, fun _ => .ok ⟨200, none⟩,
        fun _ => 1, fun _ => ⟨false, true⟩, fun _ => 0⟩
      ⟨"GET", "/x", [], [], true, none⟩ 0).2 ⟨200, none, 10⟩ (by decide)).1⟩

/-- Upper bound on transport invocations from attempt counter `attempt`:
one call now plus at most `maxNumRetries - (attempt + 1)` further calls,
since the retry-limit gate stops the loop once the post-increment counter
reaches `maxNumRetries`. -/
theorem sendLoop_calls_le (cfg : Cfg) (env : Env) (req : Request)
    (deadline : Nat) (hasBody : Bool) :
    ∀ fuel attempt now,
      (sendLoop cfg env req deadline hasBody attempt now fuel).transportCalls
        ≤ 1 + (cfg.maxNumRetries - (attempt + 1)) := by
  intro fuel
  induction fuel with
  | zero =>
    intro attempt now
    simp [sendLoop]
  | succ fuel ih =>
    intro attempt now
    have hle := send_attempt_calls_le cfg env deadline attempt
    cases har : (send_attempt cfg env deadline attempt).outcome with
    | error e =>
      simp [sendLoop, har]
      omega
    | ok ao =>
      cases ao with
      | ok r =>
        simp [sendLoop, har]
        omega
      | retry e ra =>
        cases hp : (prepare_for_retry attempt cfg.maxNumRetries req.idempotent
            (if hasBody then some (env.bodyState attempt) else none) e ra
            cfg.backoffSlotSize (env.rng attempt)).outcome with
        | abortGate e' =>
          simp [sendLoop, har, hp]
          omega
        | panicShiftOverflow =>
          simp [sendLoop, har, hp]
          omega
        | panicEmptyRange =>
          simp [sendLoop, har, hp]
          omega
        | sleep bk =>
          have hg := prepare_sleep_gates attempt cfg.maxNumRetries req.idempotent
            (if hasBody then some (env.bodyState attempt) else none) e ra
            cfg.backoffSlotSize (env.rng attempt) bk hp
          have ha := prepare_attempt_increment attempt cfg.maxNumRetries req.idempotent
            (if hasBody then some (env.bodyState attempt) else none) e ra
            cfg.backoffSlotSize (env.rng attempt)
          have hrest := ih ((prepare_for_retry attempt cfg.maxNumRetries req.idempotent
            (if hasBody then some (env.bodyState attempt) else none) e ra
            cfg.backoffSlotSize (env.rng attempt)).attempt')
            ((now + (send_attempt cfg env deadline attempt).transportCalls
              * env.attemptTime attempt) + bk)
          rw [ha] at hrest
          simp [sendLoop, har, hp, ha]
          omega

/-- At least one transport invocation whenever the loop has fuel and the
cursor yields a node for the first attempt. -/
theorem sendLoop_calls_pos (cfg : Cfg) (env : Env) (req : Request)
    (deadline : Nat) (hasBody : Bool) (fuel attempt now : Nat) (url : String)
    (hn : env.node attempt = some url) :
    1 ≤ (sendLoop cfg env req deadline hasBody attempt now (fuel + 1)).transportCalls := by
  have h1 := send_attempt_calls_some cfg env deadline attempt url hn
  cases har : (send_attempt cfg env deadline attempt).outcome with
  | error e => simp [sendLoop, har, h1]
  | ok ao =>
    cases ao with
    | ok r => simp [sendLoop, har, h1]
    | retry e ra =>
      cases hp : (prepare_for_retry attempt cfg.maxNumRetries req.idempotent
          (if hasBody then some (env.bodyState attempt) else none) e ra
          cfg.backoffSlotSize (env.rng attempt)).outcome <;>
        simp [sendLoop, har, hp, h1] <;> omega

/-- C8: when the node cursor always yields a node, a dispatch invokes the
transport at least once and at most `max 1 max_num_retries` times — the
first attempt is issued even with `max_num_retries = 0`, and the
retry-limit gate bounds the total number of attempts, not the number of
retries, by `max_num_retries`. -/
theorem c8_transport_call_bounds (cfg : Cfg) (env : Env) (req : Request) (start : Nat)
    (hnode : ∀ k, (env.node k).isSome = true) :
    1 ≤ (send cfg env req start).2.transportCalls
    ∧ (send cfg env req start).2.transportCalls ≤ max 1 cfg.maxNumRetries := by
  constructor
  · simp only [send]
    obtain ⟨url, hu⟩ := Option.isSome_iff_exists.mp (hnode 0)
    exact sendLoop_calls_pos cfg env { req with body := none }
      (start + cfg.requestTimeout) req.body.isSome cfg.maxNumRetries 0 start url hu
  · simp only [send]
    have h := sendLoop_calls_le cfg env { req with body := none }
      (start + cfg.requestTimeout) req.body.isSome (cfg.maxNumRetries + 1) 0 start
    omega

/-- Witness for C8 at a concrete input: two nodes of 503s with
`max_num_retries = 2` yield exactly two transport calls, within bounds. -/
theorem c8_transport_call_bounds_witness :
    1 ≤ (send ⟨1000, 2, 1, false, false⟩
        ⟨fun _ => some "http://a/", fun _ => .ok, fun _ => .ok ⟨503, none⟩,
          fun _ => 1, fun _ => ⟨false, true⟩, fun _ => 0⟩
        ⟨"GET", "/x", [], [], true, none⟩ 0).2.transportCalls
    ∧ (send ⟨1000, 2, 1, false, false⟩
        ⟨fun _ => some "http://a/", fun _ => .ok, fun _ => .ok ⟨503, none⟩,
          fun _ => 1, fun _ => ⟨false, true⟩, fun _ => 0⟩
        ⟨"GET", "/x", [], [], true, none⟩ 0).2.transportCalls ≤ max 1 2 :=
  c8_transport_call_bounds ⟨1000, 2, 1, false, false⟩
    ⟨fun _ => some "http://a/", fun _ => .ok, fun _ => .ok ⟨503, none⟩,
      fun _ => 1, fun _ => ⟨false, true⟩, fun _ => 0⟩
    ⟨"GET", "/x", [], [], true, none⟩ 0 (fun _ => rfl)

/-- The attempt loop never alters the request it threads: the final
request and every per-attempt snapshot equal the request it was given. -/
theorem sendLoop_frame (cfg : Cfg) (env : Env) (req : Request)
    (deadline : Nat) (hasBody : Bool) :
    ∀ fuel attempt now,
      (sendLoop cfg env req deadline hasBody attempt now fuel).finalReq = req
      ∧ ∀ s ∈ (sendLoop cfg env req deadline hasBody attempt now fuel).snapshots,
          s = req := by
  intro fuel
  induction fuel with
  | zero =>
    intro attempt now
    simp [sendLoop]
  | succ fuel ih =>
    intro attempt now
    cases har : (send_attempt cfg env deadline attempt).outcome with
    | error e => simp [sendLoop, har]
    | ok ao =>
      cases ao with
      | ok r => simp [sendLoop, har]
      | retry e ra =>
        cases hp : (prepare_for_retry attempt cfg.maxNumRetries req.idempotent
            (if hasBody then some (env.bodyState attempt) else none) e ra
            cfg.backoffSlotSize (env.rng attempt)).outcome with
        | abortGate e' => simp [sendLoop, har, hp]
        | panicShiftOverflow => simp [sendLoop, har, hp]
        | panicEmptyRange => simp [sendLoop, har, hp]
        | sleep bk =>
          simp [sendLoop, har, hp]
          exact ⟨(ih _ _).1, (ih _ _).2⟩

/-- C10: a dispatch leaves the caller-visible fields of the request
untouched — before every attempt the method, pattern, headers and params
equal the initial ones — and only the body is taken, once, at dispatch
entry. -/
theorem c10_request_frame (cfg : Cfg) (env : Env) (req : Request) (start : Nat) :
    (send cfg env req start).2.finalReq = { req with body := none }
    ∧ ∀ s ∈ (send cfg env req start).2.snapshots,
        s.method = req.method ∧ s.pattern = req.pattern ∧ s.headers = req.headers
          ∧ s.params = req.params ∧ s.idempotent = req.idempotent ∧ s.body = none := by
  have h := sendLoop_frame cfg env { req with body := none }
    (start + cfg.requestTimeout) req.body.isSome (cfg.maxNumRetries + 1) 0 start
  constructor
  · simp only [send]
    exact h.1
  · intro s hs
    simp only [send] at hs
    have hseq := h.2 s hs
    simp [hseq]

/-- Witness for C10 at a concrete input: the final request after a
retried dispatch keeps every field and has its body taken. -/
theorem c10_request_frame_witness :
    (send ⟨1000, 2, 1, false, false⟩
        ⟨fun _ => some "http://a/", fun _ => .ok, fun _ => .ok ⟨503, none⟩,
          fun _ => 1, fun _ => ⟨false, true⟩, fun _ => 0⟩
        ⟨"GET", "/x", [("accept", "json")], [("q", ["1"])], true, some ()⟩ 0).2.finalReq
      = ⟨"GET", "/x", [("accept", "json")], [("q", ["1"])], true, none⟩ :=
  (c10_request_frame ⟨1000, 2, 1, false, false⟩
    ⟨fun _ => some "http://a/", fun _ => .ok, fun _ => .ok ⟨503, none⟩,
      fun _ => 1, fun _ => ⟨false, true⟩, fun _ => 0⟩
    ⟨"GET", "/x", [("accept", "json")], [("q", ["1"])], true, some ()⟩ 0).1

/-- The removed value of `removeParam` is the map lookup. -/
theorem removeParam_fst (n : String) (ps : List (String × List String)) :
    (removeParam n ps).1 = lookupParam ps n := by
  induction ps with
  | nil => rfl
  | cons kv rest ih =>
    obtain ⟨k, vs⟩ := kv
    by_cases h : k = n <;> simp [removeParam, lookupParam, h, ih]

/-- Removing one key leaves lookups of other keys unchanged. -/
theorem lookupParam_removeParam_ne (n m : String) (ps : List (String × List String))
    (h : m ≠ n) :
    lookupParam (removeParam n ps).2 m = lookupParam ps m := by
  induction ps with
  | nil => rfl
  | cons kv rest ih =>
    obtain ⟨k, vs⟩ := kv
    by_cases hk : k = n
    · subst hk
      simp [removeParam, lookupParam, show ¬ (k = m) from fun hh => h hh.symm]
    · by_cases hm : k = m <;> simp [removeParam, lookupParam, hk, hm, h, ih]

/-- With distinct keys, removing a key is filtering it out. -/
theorem removeParam_snd_of_nodup (n : String) (ps : List (String × List String))
    (hnd : (ps.map Prod.fst).Nodup) :
    (removeParam n ps).2 = ps.filter (fun kv => kv.1 != n) := by
  induction ps with
  | nil => rfl
  | cons kv rest ih =>
    obtain ⟨k, vs⟩ := kv
    simp only [List.map_cons, List.nodup_cons] at hnd
    by_cases hk : k = n
    · subst hk
      have hall : ∀ kv ∈ rest, (kv.1 != k) = true := by
        intro kv hkv
        simp only [bne_iff_ne, ne_eq]
        intro hh
        exact hnd.1 (hh ▸ List.mem_map_of_mem Prod.fst hkv)
      rw [List.filter_cons_of_neg (by simp), List.filter_eq_self.mpr hall]
      simp [removeParam]
    · rw [List.filter_cons_of_pos (by simp [hk])]
      simp [removeParam, hk, ih hnd.2]

/-- Segment loop, success case: with distinct parameter keys, distinct
placeholders, and every placeholder bound to exactly one value, the loop
appends exactly the resolved segments in order and leaves exactly the
parameters no placeholder consumed. -/
theorem build_url_go_good :
    ∀ (segs : List String) (url : Url) (ps : List (String × List String)),
      (ps.map Prod.fst).Nodup →
      (segs.filterMap parse_param).Nodup →
      (∀ n ∈ segs.filterMap parse_param, badCardinality ps n = false) →
      build_url_go url ps segs
        = some (⟨url.pathSegments ++ segs.map (specSegment ps), url.queryPairs⟩,
            ps.filter (fun kv => !((segs.filterMap parse_param).contains kv.1))) := by
  intro segs
  induction segs with
  | nil =>
    intro url ps hnd hph hgood
    obtain ⟨up, uq⟩ := url
    simp [build_url_go]
  | cons seg rest ih =>
    intro url ps hnd hph hgood
    cases hpp : parse_param seg with
    | none =>
      have hspec : specSegment ps seg = seg := by simp [specSegment, hpp]
      have hfm : (seg :: rest).filterMap parse_param = rest.filterMap parse_param := by
        simp [List.filterMap_cons, hpp]
      rw [hfm] at hph hgood
      simp only [build_url_go, hpp]
      rw [ih _ ps hnd hph hgood]
      simp [hfm, hspec]
    | some n =>
      have hfm : (seg :: rest).filterMap parse_param = n :: rest.filterMap parse_param := by
        simp [List.filterMap_cons, hpp]
      rw [hfm] at hph hgood
      have hnd2 := List.nodup_cons.mp hph
      have hbadn := hgood n (List.mem_cons_self _ _)
      cases hlk : lookupParam ps n with
      | none => simp [badCardinality, hlk] at hbadn
      | some vs =>
        have hlen : vs.length = 1 := by
          simpa [badCardinality, hlk] using hbadn
        obtain ⟨v, rfl⟩ := List.length_eq_one.mp hlen
        set ps2 := (removeParam n ps).2 with hps2
        have hrp : removeParam n ps = (some [v], ps2) := by
          have h1 := removeParam_fst n ps
          rw [hlk] at h1
          rw [hps2]
          exact Prod.ext h1 rfl
        simp only [build_url_go, hpp, hrp]
        have hsnd : ps2 = ps.filter (fun kv => kv.1 != n) := by
          rw [hps2]
          exact removeParam_snd_of_nodup n ps hnd
        have hnd' : (ps2.map Prod.fst).Nodup := by
          rw [hsnd]
          exact List.Nodup.sublist (List.Sublist.map _ (List.filter_sublist _)) hnd
        have hlk2 : ∀ m, m ≠ n → lookupParam ps2 m = lookupParam ps m := by
          intro m hmn
          rw [hps2]
          exact lookupParam_removeParam_ne n m ps hmn
        have hgood' : ∀ m ∈ rest.filterMap parse_param,
            badCardinality ps2 m = false := by
          intro m hm
          have hmn : m ≠ n := fun e => hnd2.1 (e ▸ hm)
          have hmg := hgood m (List.mem_cons_of_mem _ hm)
          simpa [badCardinality, hlk2 m hmn] using hmg
        rw [ih _ ps2 hnd' hnd2.2 hgood']
        have hmapc : rest.map (specSegment ps2) = rest.map (specSegment ps) := by
          apply List.map_congr_left
          intro s hs
          cases hps : parse_param s with
          | none => simp [specSegment, hps]
          | some m =>
            have hm : m ∈ rest.filterMap parse_param := List.mem_filterMap.mpr ⟨s, hs, hps⟩
            have hmn : m ≠ n := fun e => hnd2.1 (e ▸ hm)
            simp [specSegment, hps, hlk2 m hmn]
        have hfilt : ps2.filter
              (fun kv => !((rest.filterMap parse_param).contains kv.1))
            = ps.filter (fun kv => !((n :: rest.filterMap parse_param).contains kv.1)) := by
          rw [hsnd, List.filter_filter]
          apply List.filter_congr
          intro kv hkv
          by_cases hkn : kv.1 = n <;> simp [List.contains_cons, Bool.not_or, hkn]
        have hspec : specSegment ps seg = v := by simp [specSegment, hpp, hlk]
        rw [hmapc, hfilt]
        simp only [hfm, List.map_cons, hspec, List.singleton_append, List.append_assoc]

/-- Segment loop, failure case: if any placeholder of the segment list is
absent from the parameter map or bound to more than one value, the loop
panics (`none`). -/
theorem build_url_go_bad :
    ∀ (segs : List String) (url : Url) (ps : List (String × List String)) (n : String),
      n ∈ segs.filterMap parse_param → badCardinality ps n = true →
      build_url_go url ps segs = none := by
  intro segs
  induction segs with
  | nil =>
    intro url ps n hn hbad
    simp at hn
  | cons seg rest ih =>
    intro url ps n hn hbad
    cases hpp : parse_param seg with
    | none =>
      rw [show (seg :: rest).filterMap parse_param = rest.filterMap parse_param from by
        simp [List.filterMap_cons, hpp]] at hn
      simp only [build_url_go, hpp]
      exact ih _ ps n hn hbad
    | some m =>
      rw [show (seg :: rest).filterMap parse_param = m :: rest.filterMap parse_param from by
        simp [List.filterMap_cons, hpp]] at hn
      rcases hrp : removeParam m ps with ⟨o, ps2⟩
      have ho : o = lookupParam ps m := by rw [← removeParam_fst m ps, hrp]
      cases hlk : lookupParam ps m with
      | none =>
        rw [hlk] at ho
        subst ho
        simp [build_url_go, hpp, hrp]
      | some vs =>
        rw [hlk] at ho
        subst ho
        cases vs with
        | nil => simp [build_url_go, hpp, hrp]
        | cons v vt =>
          cases vt with
          | cons v2 vt2 => simp [build_url_go, hpp, hrp]
          | nil =>
            have hnm : n ≠ m := by
              intro he
              subst he
              rw [badCardinality, hlk] at hbad
              simp at hbad
            have hn' : n ∈ rest.filterMap parse_param := by
              cases List.mem_cons.mp hn with
              | inl h => exact absurd h hnm
              | inr h => exact h
            have hbad2 : badCardinality ps2 n = true := by
              have h2 : (removeParam m ps).2 = ps2 := by rw [hrp]
              rw [badCardinality, ← h2, lookupParam_removeParam_ne m n ps hnm]
              rw [badCardinality] at hbad
              exact hbad
            simp only [build_url_go, hpp, hrp]
            exact ih _ ps2 n hn' hbad2

/-- C7: for a pattern starting with a slash whose (distinct) placeholders
are each bound to exactly one value in a duplicate-free parameter map,
the built URL appends exactly the pattern's segments in order with
placeholders replaced by their single value (the pattern consisting of
just the slash included, via its one empty segment), and appends one
query pair per value of every unconsumed parameter, preserving order; an
unbound or multi-valued placeholder makes `build_url` panic instead. -/
theorem c7_url_composition (base : Url) (pattern : String)
    (params : List (String × List String))
    (hslash : strStartsWith '/' pattern = true) :
    ((params.map Prod.fst).Nodup →
      ((splitSegs pattern.data.tail).filterMap parse_param).Nodup →
      (∀ n ∈ (splitSegs pattern.data.tail).filterMap parse_param,
        badCardinality params n = false) →
      build_url base pattern params
        = some ⟨base.pathSegments
              ++ (splitSegs pattern.data.tail).map (specSegment params),
            base.queryPairs
              ++ (params.filter (fun kv =>
                  !(((splitSegs pattern.data.tail).filterMap parse_param).contains
                    kv.1))).flatMap (fun kv => kv.2.map (fun v => (kv.1, v)))⟩)
    ∧ (∀ n ∈ (splitSegs pattern.data.tail).filterMap parse_param,
        badCardinality params n = true → build_url base pattern params = none) := by
  constructor
  · intro hnd hph hgood
    simp only [build_url, hslash, if_true,
      build_url_go_good (splitSegs pattern.data.tail) base params hnd hph hgood]
  · intro n hn hbad
    simp only [build_url, hslash, if_true,
      build_url_go_bad (splitSegs pattern.data.tail) base params n hn hbad]

/-- Witness for C7 at concrete inputs: a bound pattern, the bare slash
pattern, and an unbound placeholder. -/
theorem c7_url_composition_witness :
    build_url ⟨["api"], [("b", "q")]⟩ "/v1/\x7bid\x7d/list"
        [("id", ["abc"]), ("q", ["x", "y"])]
      = some ⟨["api", "v1", "abc", "list"], [("b", "q"), ("q", "x"), ("q", "y")]⟩
    ∧ build_url ⟨[], []⟩ "/" [] = some ⟨[""], []⟩
    ∧ build_url ⟨[], []⟩ "/\x7bmissing\x7d" [] = none := by
  refine ⟨?_, ?_, ?_⟩
  · exact ((c7_url_composition ⟨["api"], [("b", "q")]⟩ "/v1/\x7bid\x7d/list"
      [("id", ["abc"]), ("q", ["x", "y"])] (by decide)).1 (by decide) (by decide)
      (by decide)).trans (by decide)
  · exact ((c7_url_composition ⟨[], []⟩ "/" [] (by decide)).1 (by decide) (by decide)
      (by decide)).trans (by decide)
  · exact (c7_url_composition ⟨[], []⟩ "/\x7bmissing\x7d" [] (by decide)).2 "missing"
      (by decide) (by decide)
